import Mathlib

/-
Shallow embedding of the zmq-async core (src/lib.rs, src/waker.rs).

Messages are byte lists.  The wrapped zmq socket is external, so each
non-blocking attempt is driven by an oracle entry recording what the
transport returned for that attempt (the outcome of `zmq_send` /
`zmq_recv`, the fresh `ZMQ_EVENTS` value that `get_events` would
report, and for receives the `get_rcvmore` answer observed after a
successful part).  Every operation returns, next to its result, the
ordered list of observable actions it performed: transport calls,
reactor-readiness clears (`clear_read_ready` / `clear_write_ready`),
waker registration and waker firing.  This trace is what the claims
about ordering, suspension and transport contact are stated over.
-/

namespace ZmqAsync

/-- Message payload: the bytes of a `zmq::Message`. -/
abbrev Msg := List Nat

/-- zmq constant `ZMQ_DONTWAIT`. -/
def DONTWAIT : Nat := 1

/-- zmq constant `ZMQ_SNDMORE`. -/
def SNDMORE : Nat := 2

/-- zmq constant `ZMQ_POLLIN` (bit in `ZMQ_EVENTS`). -/
def POLLIN : Nat := 1

/-- zmq constant `ZMQ_POLLOUT` (bit in `ZMQ_EVENTS`). -/
def POLLOUT : Nat := 2

/-- Errors the wrapped transport can return (`zmq::Error` variants the
wrapper distinguishes, plus representatives of the rest). -/
inductive ZmqError where
  | EAGAIN
  | ENOTSUP
  | EINVAL
  | EFSM
  | ETERM
  | EINTR
  | EHOSTUNREACH
  deriving DecidableEq

/-- Result of a transport call (`Result<T, zmq::Error>`). -/
inductive ZmqResult (α : Type) where
  | ok (a : α)
  | err (e : ZmqError)
  deriving DecidableEq

/-- `std::task::Poll`. -/
inductive Poll (α : Type) where
  | Ready (a : α)
  | Pending
  deriving DecidableEq

/-- Observable actions performed by the wrapper, in program order. -/
inductive Action where
  | transportSend (msg : Msg) (flags : Nat)
  | transportRecv (res : ZmqResult Msg)
  | getEvents
  | getRcvmore (more : Bool)
  | clearReadReady
  | clearWriteReady
  | registerWrite
  | registerRead
  | wakeRead
  | wakeWrite
  deriving DecidableEq

/-- Oracle entry for one `poll_write` attempt: the outcome of
`sock.send(..., DONTWAIT | flags)` and the `ZMQ_EVENTS` value a
subsequent `get_events()` would return. -/
structure WriteAttemptInput where
  sendResult : ZmqResult Unit
  events : Nat
  deriving DecidableEq

/-- Oracle entry for one `poll_read` attempt: the outcome of
`sock.recv_msg(DONTWAIT)`, the `ZMQ_EVENTS` value a subsequent
`get_events()` would return, and the `get_rcvmore()` answer observed
after this part when the attempt succeeds. -/
structure ReadAttemptInput where
  recvResult : ZmqResult Msg
  events : Nat
  rcvmore : Bool
  deriving DecidableEq

/-- Rust `msg.to_vec()`: the bytes of the message. -/
def Msg.to_vec (m : Msg) : List Nat := m

/-- Rust `Vec<u8>::into::<zmq::Message>()`: a message holding exactly
those bytes. -/
def msg_of_vec (v : List Nat) : Msg := v

/-- `fn copy_msg(msg: &zmq::Message) -> zmq::Message { msg.to_vec().into() }` -/
def copy_msg (msg : Msg) : Msg := msg_of_vec (Msg.to_vec msg)

/-- `Socket::check_readiness`: `let flg = self.sock.get_events()?;
Ok((flg & events).is_empty())`.  `flg` is the oracle-supplied
`ZMQ_EVENTS` value. -/
def check_readiness (flg : Nat) (events : Nat) : Bool :=
  flg &&& events == 0

/-- `Socket::wakeup_read`: `if self.check_readiness(zmq::POLLIN)? {
self.read.wake(); }` — returns the actions performed. -/
def wakeup_read (flg : Nat) : List Action :=
  Action.getEvents ::
    (if check_readiness flg POLLIN then [Action.wakeRead] else [])

/-- `Socket::wakeup_write`: `if self.check_readiness(zmq::POLLOUT)? {
self.write.wake(); }` — returns the actions performed. -/
def wakeup_write (flg : Nat) : List Action :=
  Action.getEvents ::
    (if check_readiness flg POLLOUT then [Action.wakeWrite] else [])

/-- `Socket::poll_write`: one non-blocking send attempt of one frame.
Matches on `self.sock.send(copy_msg(msg), zmq::DONTWAIT | flags)`:
on `Ok(_)`, runs `wakeup_read` and is `Ready(Ok(()))`; on
`Err(EAGAIN)`, runs `self.evented.clear_read_ready(cx, Ready::readable())`,
then `self.write.register(...)`, and is `Pending`; on any other error,
is `Ready(Err(e))`. -/
def poll_write (msg : Msg) (flags : Nat) (inp : WriteAttemptInput) :
    Poll (ZmqResult Unit) × List Action :=
  match inp.sendResult with
  | .ok _ =>
      (Poll.Ready (.ok ()),
        Action.transportSend (copy_msg msg) (DONTWAIT ||| flags) ::
          wakeup_read inp.events)
  | .err ZmqError.EAGAIN =>
      (Poll.Pending,
        [Action.transportSend (copy_msg msg) (DONTWAIT ||| flags),
         Action.clearReadReady, Action.registerWrite])
  | .err e =>
      (Poll.Ready (.err e),
        [Action.transportSend (copy_msg msg) (DONTWAIT ||| flags)])

/-- `Socket::poll_read`: one non-blocking receive attempt of one part.
Matches on `self.sock.recv_msg(zmq::DONTWAIT)`: on `Ok(msg)`, runs
`wakeup_write` and is `Ready(Ok(msg))`; on `Err(EAGAIN)`, runs
`self.evented.clear_write_ready(cx)`, then `self.read.register(...)`,
and is `Pending`; on any other error, is `Ready(Err(e))`. -/
def poll_read (inp : ReadAttemptInput) : Poll (ZmqResult Msg) × List Action :=
  match inp.recvResult with
  | .ok msg =>
      (Poll.Ready (.ok msg),
        Action.transportRecv (.ok msg) :: wakeup_write inp.events)
  | .err ZmqError.EAGAIN =>
      (Poll.Pending,
        [Action.transportRecv (.err ZmqError.EAGAIN),
         Action.clearWriteReady, Action.registerRead])
  | .err e =>
      (Poll.Ready (.err e), [Action.transportRecv (.err e)])

/-- `Socket::send` for one frame: `poll_fn(|cx| self.poll_write(cx, &msg,
flags)).await` — repeats `poll_write` (one oracle entry per attempt)
until it is `Ready`; `none` when the oracle runs out while still
suspended.  Returns the result, the concatenated trace and the unused
oracle suffix. -/
def sendFrame (msg : Msg) (flags : Nat) :
    List WriteAttemptInput →
      Option (ZmqResult Unit × List Action × List WriteAttemptInput)
  | [] => none
  | inp :: rest =>
    match poll_write msg flags inp with
    | (Poll.Ready r, tr) => some (r, tr, rest)
    | (Poll.Pending, tr) =>
        match sendFrame msg flags rest with
        | none => none
        | some (r, tr', o) => some (r, tr ++ tr', o)

/-- `Socket::send_multipart`: iterates the frames with a peekable
iterator, sending each with `SNDMORE` while a next frame exists and
with flags `0` on the last, awaiting each single-frame send in turn;
the first error aborts the loop. -/
def send_multipart :
    List Msg → List WriteAttemptInput →
      Option (ZmqResult Unit × List Action × List WriteAttemptInput)
  | [], oracle => some (.ok (), [], oracle)
  | m :: rest, oracle =>
    match sendFrame m (if rest.isEmpty then 0 else SNDMORE) oracle with
    | none => none
    | some (.err e, tr, o) => some (.err e, tr, o)
    | some (.ok _, tr, o) =>
        match send_multipart rest o with
        | none => none
        | some (r, tr', o') => some (r, tr ++ tr', o')

/-- `Socket::recv_multipart_as` body: `let mut parts = vec![]; loop {
let part = self.recv_as().await?; parts.push(part); if
!self.sock.get_rcvmore()? { break; } }`.  `parts` is the local
accumulator; it survives a `Pending` (the await suspension) unchanged,
exactly as the Rust local survives the await point.  Each oracle entry
drives one `poll_read` attempt; after a successful part the
`get_rcvmore` answer of that entry decides whether the loop continues. -/
def recv_multipart_run (parts : List Msg) :
    List ReadAttemptInput →
      Option (ZmqResult (List Msg) × List Action × List ReadAttemptInput)
  | [] => none
  | inp :: rest =>
    match poll_read inp with
    | (Poll.Pending, tr) =>
        match recv_multipart_run parts rest with
        | none => none
        | some (r, tr', o) => some (r, tr ++ tr', o)
    | (Poll.Ready (.err e), tr) => some (.err e, tr, rest)
    | (Poll.Ready (.ok msg), tr) =>
        if inp.rcvmore then
          match recv_multipart_run (parts ++ [msg]) rest with
          | none => none
          | some (r, tr', o) =>
              some (r, tr ++ [Action.getRcvmore true] ++ tr', o)
        else
          some (.ok (parts ++ [msg]), tr ++ [Action.getRcvmore false], rest)

/-- `Socket::recv_multipart` / `recv_multipart_as`, started with the
empty part list (with the identity `FromMessage` conversion, as in
`recv_multipart`). -/
def recv_multipart_as (oracle : List ReadAttemptInput) :
    Option (ZmqResult (List Msg) × List Action × List ReadAttemptInput) :=
  recv_multipart_run [] oracle

/-- `TaskWaker` (src/waker.rs): `waker: RefCell<Option<Waker>>`.  Resume
handles are abstracted as natural-number identifiers. -/
structure TaskWaker where
  waker : Option Nat
  deriving DecidableEq

/-- `TaskWaker::new`: empty slot. -/
def TaskWaker.new : TaskWaker := ⟨none⟩

/-- `TaskWaker::register`: `self.waker.replace(Some(waker.clone()))` —
stores the handle, discarding whatever was there. -/
def TaskWaker.register (_t : TaskWaker) (w : Nat) : TaskWaker := ⟨some w⟩

/-- `TaskWaker::wake`: `match &*self.waker.borrow() { Some(waker) =>
waker.wake_by_ref(), _ => {} }` — returns the slot afterwards (the
borrow is read-only, so it is unchanged) and the list of resume handles
scheduled by this call. -/
def TaskWaker.wake (t : TaskWaker) : TaskWaker × List Nat :=
  match t.waker with
  | some w => (t, [w])
  | none => (t, [])

/-- Transport send calls appearing in a trace, with their flags, in order. -/
def sendActions (tr : List Action) : List (Msg × Nat) :=
  tr.filterMap fun a =>
    match a with
    | Action.transportSend m f => some (m, f)
    | _ => none

/-- Messages delivered by successful transport receives in a trace, in order. -/
def recvOks (tr : List Action) : List Msg :=
  tr.filterMap fun a =>
    match a with
    | Action.transportRecv (.ok m) => some m
    | _ => none

/-- The `get_rcvmore` answers observed in a trace, in order. -/
def rcvmoreObs (tr : List Action) : List Bool :=
  tr.filterMap fun a =>
    match a with
    | Action.getRcvmore b => some b
    | _ => none

/-- Whether an action touches the transport socket (a send or receive
call on it). -/
def isTransportOp : Action → Bool
  | Action.transportSend _ _ => true
  | Action.transportRecv _ => true
  | _ => false

/-- Transport calls that `send_multipart` should issue according to the
frame sequence alone: each frame but the last with `SNDMORE` set, the
last with no extra flag (all attempts carry `DONTWAIT`), each frame
passed through `copy_msg`. -/
def expectedSendCalls : List Msg → List (Msg × Nat)
  | [] => []
  | [m] => [(copy_msg m, DONTWAIT ||| 0)]
  | m :: rest => (copy_msg m, DONTWAIT ||| SNDMORE) :: expectedSendCalls rest

/- Shared helper lemmas about traces. -/

theorem sendActions_append (a b : List Action) :
    sendActions (a ++ b) = sendActions a ++ sendActions b :=
  List.filterMap_append a b _

theorem recvOks_append (a b : List Action) :
    recvOks (a ++ b) = recvOks a ++ recvOks b :=
  List.filterMap_append a b _

theorem rcvmoreObs_append (a b : List Action) :
    rcvmoreObs (a ++ b) = rcvmoreObs a ++ rcvmoreObs b :=
  List.filterMap_append a b _

theorem sendActions_wakeup_read (ev : Nat) : sendActions (wakeup_read ev) = [] := by
  unfold wakeup_read
  split <;> rfl

theorem recvOks_wakeup_write (ev : Nat) : recvOks (wakeup_write ev) = [] := by
  unfold wakeup_write
  split <;> rfl

theorem rcvmoreObs_wakeup_write (ev : Nat) : rcvmoreObs (wakeup_write ev) = [] := by
  unfold wakeup_write
  split <;> rfl

theorem sendActions_poll_write (msg : Msg) (flags : Nat) (inp : WriteAttemptInput) :
    sendActions (poll_write msg flags inp).2 =
      [(copy_msg msg, DONTWAIT ||| flags)] := by
  rcases inp with ⟨sr, ev⟩
  cases sr with
  | ok a =>
      show sendActions (Action.transportSend (copy_msg msg) (DONTWAIT ||| flags) ::
        wakeup_read ev) = _
      rw [show (Action.transportSend (copy_msg msg) (DONTWAIT ||| flags) ::
        wakeup_read ev) = [Action.transportSend (copy_msg msg) (DONTWAIT ||| flags)] ++
        wakeup_read ev from rfl, sendActions_append, sendActions_wakeup_read]
      rfl
  | err e => cases e <;> rfl

/-- C1.  The claim says a wrong-direction call returns the
unsupported-direction error "without performing any transport
operation".  The code has no capability gate: `poll_read` always starts
with `sock.recv_msg(DONTWAIT)`, and on a write-only socket that
transport call itself is what produces the `ENOTSUP` error.  Concretely,
`recv_multipart` on a socket whose transport rejects reads returns the
error but its trace contains a transport receive. -/
theorem C1_counterexample :
    recv_multipart_as [⟨.err ZmqError.ENOTSUP, 0, false⟩] =
      some (.err ZmqError.ENOTSUP,
        [Action.transportRecv (.err ZmqError.ENOTSUP)], []) ∧
    ([Action.transportRecv (.err ZmqError.ENOTSUP)].filter isTransportOp) ≠ [] := by
  decide

/-- C1 (amended).  On a write-only socket — one whose transport rejects
the receive direction with `ENOTSUP` — `recv_multipart()` returns the
unsupported-direction error immediately: no suspension (`Ready`, never
`Pending`), no waker registration and no readiness clear; but the error
is obtained by performing the single non-blocking transport receive
attempt, whose trace is exactly one transport call.  Symmetrically for
`send_multipart` on a read-only socket. -/
theorem C1_theorem (msg m0 : Msg) (flags ev ev2 : Nat) (mr : Bool)
    (msgs : List Msg) (oracle : List WriteAttemptInput)
    (roracle : List ReadAttemptInput) :
    poll_read ⟨.err ZmqError.ENOTSUP, ev2, mr⟩ =
      (Poll.Ready (.err ZmqError.ENOTSUP),
        [Action.transportRecv (.err ZmqError.ENOTSUP)]) ∧
    poll_write msg flags ⟨.err ZmqError.ENOTSUP, ev⟩ =
      (Poll.Ready (.err ZmqError.ENOTSUP),
        [Action.transportSend (copy_msg msg) (DONTWAIT ||| flags)]) ∧
    recv_multipart_as (⟨.err ZmqError.ENOTSUP, ev2, mr⟩ :: roracle) =
      some (.err ZmqError.ENOTSUP,
        [Action.transportRecv (.err ZmqError.ENOTSUP)], roracle) ∧
    send_multipart (m0 :: msgs) (⟨.err ZmqError.ENOTSUP, ev⟩ :: oracle) =
      some (.err ZmqError.ENOTSUP,
        [Action.transportSend (copy_msg m0)
          (DONTWAIT ||| (if msgs.isEmpty then 0 else SNDMORE))], oracle) :=
  ⟨rfl, rfl, rfl, rfl⟩

/-- C2.  Evaluation of the code at the failing input.  After a
successful send with fresh `ZMQ_EVENTS = POLLIN` (input pending), the
code does NOT fire the read waker; with `ZMQ_EVENTS = 0` (nothing
pending) it DOES fire it — the exact inversion of the claimed
"fires iff the readable bit is set", because `check_readiness` returns
`(flg & events).is_empty()`.  Symmetrically for receive and `POLLOUT`. -/
theorem C2_code_eval :
    Action.wakeRead ∉ (poll_write [0] 0 ⟨.ok (), POLLIN⟩).2 ∧
    Action.wakeRead ∈ (poll_write [0] 0 ⟨.ok (), 0⟩).2 ∧
    Action.wakeWrite ∉ (poll_read ⟨.ok [1], POLLOUT, false⟩).2 ∧
    Action.wakeWrite ∈ (poll_read ⟨.ok [1], 0, false⟩).2 := by
  decide

/-- C3.  The claim says a would-block send clears the WRITE direction's
reactor-level readiness.  The code calls
`self.evented.clear_read_ready(cx, Ready::readable())`: the trace of the
EAGAIN branch contains `clearReadReady` and no `clearWriteReady` at
all. -/
theorem C3_counterexample :
    poll_write [0] 0 ⟨.err ZmqError.EAGAIN, 0⟩ =
      (Poll.Pending,
        [Action.transportSend [0] 1, Action.clearReadReady,
         Action.registerWrite]) ∧
    Action.clearWriteReady ∉ (poll_write [0] 0 ⟨.err ZmqError.EAGAIN, 0⟩).2 := by
  decide

/-- C3 (amended).  For every send attempt failing with would-block, the
operation clears the READ direction's reactor-level readiness (the zmq
notification descriptor signals edges as readable), and this clear
happens strictly before the task's resume handle is stored into the
write Waker Slot and the attempt suspends: the trace is exactly
transport send, then `clearReadReady`, then `registerWrite`, and the
result is `Pending`. -/
theorem C3_theorem (msg : Msg) (flags ev : Nat) :
    poll_write msg flags ⟨.err ZmqError.EAGAIN, ev⟩ =
      (Poll.Pending,
        [Action.transportSend (copy_msg msg) (DONTWAIT ||| flags),
         Action.clearReadReady, Action.registerWrite]) :=
  rfl

/-- C6.  The claim says `fire()` takes the stored handle, schedules it
exactly once and then clears the slot.  `TaskWaker::wake` only reads the
`RefCell` (`&*self.waker.borrow()`) and calls `wake_by_ref`: after
registering handle 7 and firing, the slot still holds 7, and a second
fire schedules 7 again. -/
theorem C6_counterexample :
    ((TaskWaker.new.register 7).wake).1.waker = some 7 ∧
    (((TaskWaker.new.register 7).wake).1.wake).2 = [7] := by
  decide

/-- C6 (amended).  `register(handle)` overwrites any previously stored
handle; `fire()` schedules the stored handle's resumption once per call
but leaves the slot unchanged (it does not clear it); `fire()` with
nothing stored — including twice in a row — is a no-op (no resume
scheduled, slot still empty). -/
theorem C6_theorem (t : TaskWaker) (w : Nat) :
    (t.register w).waker = some w ∧
    TaskWaker.new.wake = (TaskWaker.new, []) ∧
    (TaskWaker.new.wake.1).wake = (TaskWaker.new, []) ∧
    (t.register w).wake = (t.register w, [w]) :=
  ⟨rfl, rfl, rfl, rfl⟩

/-- C8.  `copy_msg` round-trips the message bytes exactly
(`msg.to_vec().into()` yields a message with the same bytes), and every
`poll_write` attempt — successful, would-block or fatal — passes
`copy_msg msg` (not the original) to the transport as its first action,
so the caller's frame stays intact and available for a retry. -/
theorem C8_theorem (msg : Msg) (flags : Nat) (inp : WriteAttemptInput) :
    copy_msg msg = msg ∧
    (poll_write msg flags inp).2.head? =
      some (Action.transportSend (copy_msg msg) (DONTWAIT ||| flags)) := by
  refine ⟨rfl, ?_⟩
  rcases inp with ⟨sr, ev⟩
  cases sr with
  | ok a => rfl
  | err e => cases e <;> rfl

/-- C4.  The claim says every attempt sends the entire frame sequence,
so a send that suspended once would re-send the whole sequence on
resume.  In a run of `send_multipart [[0], [1]]` whose transport accepts
frame `[0]`, would-blocks once on `[1]` and then accepts it, the trace
shows a suspension (`registerWrite`) yet frame `[0]` is sent exactly
once and only the failing frame `[1]` is sent twice: the code sends
frame by frame and never retries the full sequence. -/
theorem C4_counterexample :
    send_multipart [[0], [1]]
        [⟨.ok (), 0⟩, ⟨.err ZmqError.EAGAIN, 0⟩, ⟨.ok (), 0⟩] =
      some (.ok (),
        [Action.transportSend [0] 3, Action.getEvents, Action.wakeRead,
         Action.transportSend [1] 1, Action.clearReadReady, Action.registerWrite,
         Action.transportSend [1] 1, Action.getEvents, Action.wakeRead], []) ∧
    Action.registerWrite ∈
        [Action.transportSend [0] 3, Action.getEvents, Action.wakeRead,
         Action.transportSend [1] 1, Action.clearReadReady, Action.registerWrite,
         Action.transportSend [1] 1, Action.getEvents, Action.wakeRead] ∧
    (sendActions
        [Action.transportSend [0] 3, Action.getEvents, Action.wakeRead,
         Action.transportSend [1] 1, Action.clearReadReady, Action.registerWrite,
         Action.transportSend [1] 1, Action.getEvents, Action.wakeRead]).countP
      (fun p => p.1 == [0]) = 1 ∧
    (sendActions
        [Action.transportSend [0] 3, Action.getEvents, Action.wakeRead,
         Action.transportSend [1] 1, Action.clearReadReady, Action.registerWrite,
         Action.transportSend [1] 1, Action.getEvents, Action.wakeRead]).countP
      (fun p => p.1 == [1]) = 2 := by
  decide

/-- C4 (amended).  A multi-frame send proceeds frame by frame; when a
frame's send would-blocks and later resumes, every attempt of that
single-frame send (the `poll_fn` retry loop) passes to the transport the
same byte-identical copy of that one frame with the same flags — it
retries only the failing frame, never resuming part-way through a frame
and never re-sending earlier frames. -/
theorem C4_theorem (msg : Msg) (flags : Nat) (oracle : List WriteAttemptInput)
    (r : ZmqResult Unit) (tr : List Action) (rest : List WriteAttemptInput)
    (h : sendFrame msg flags oracle = some (r, tr, rest)) :
    ∀ p ∈ sendActions tr, p = (copy_msg msg, DONTWAIT ||| flags) := by
  induction oracle generalizing r tr rest with
  | nil => simp [sendFrame] at h
  | cons inp o ih =>
    rw [sendFrame] at h
    split at h
    case h_1 r1 tr1 heq =>
      simp only [Option.some.injEq, Prod.mk.injEq] at h
      obtain ⟨h1, h2, h3⟩ := h
      subst h2
      have hsa := sendActions_poll_write msg flags inp
      rw [heq] at hsa
      intro p hp
      rw [hsa] at hp
      simpa using hp
    case h_2 tr1 heq =>
      split at h
      · exact absurd h (by simp)
      case h_2 r2 tr2 o2 heq2 =>
        simp only [Option.some.injEq, Prod.mk.injEq] at h
        obtain ⟨h1, h2, h3⟩ := h
        subst h2
        intro p hp
        rw [sendActions_append] at hp
        rcases List.mem_append.1 hp with hp1 | hp2
        · have hsa := sendActions_poll_write msg flags inp
          rw [heq] at hsa
          rw [hsa] at hp1
          simpa using hp1
        · exact ih _ _ _ heq2 p hp2

/-- C4 witness: the amended theorem applied to a concrete run in which
frame `[5]` would-blocks once and is retried; the transport call
`([5], 3)` appearing in its trace equals the frame's copy with
`DONTWAIT ||| SNDMORE`. -/
theorem C4_theorem_witness :
    sendFrame [5] 2 [⟨.err ZmqError.EAGAIN, 0⟩, ⟨.ok (), 0⟩] =
      some (.ok (),
        [Action.transportSend [5] 3, Action.clearReadReady, Action.registerWrite,
         Action.transportSend [5] 3, Action.getEvents, Action.wakeRead], []) ∧
    ([5], 3) ∈ sendActions
        [Action.transportSend [5] 3, Action.clearReadReady, Action.registerWrite,
         Action.transportSend [5] 3, Action.getEvents, Action.wakeRead] ∧
    (([5] : Msg), 3) = (copy_msg [5], DONTWAIT ||| 2) :=
  ⟨by decide, by decide,
    C4_theorem [5] 2 [⟨.err ZmqError.EAGAIN, 0⟩, ⟨.ok (), 0⟩] (.ok ())
      [Action.transportSend [5] 3, Action.clearReadReady, Action.registerWrite,
       Action.transportSend [5] 3, Action.getEvents, Action.wakeRead] []
      (by decide) ([5], 3) (by decide)⟩

/-- C5.  The claim says a receive that would-blocks mid-assembly
restarts from an empty part list.  In a run where the transport delivers
part `[7]` with more-to-come, then would-blocks, then delivers the final
part `[8]`, the trace shows a suspension (`registerRead`) strictly after
the first part was pulled, yet the final result is `[[7], [8]]` — the
part pulled before the suspension is retained, not discarded (a restart
from empty would have yielded `[[8]]`). -/
theorem C5_counterexample :
    recv_multipart_as
        [⟨.ok [7], 0, true⟩, ⟨.err ZmqError.EAGAIN, 0, false⟩, ⟨.ok [8], 0, false⟩] =
      some (.ok [[7], [8]],
        [Action.transportRecv (.ok [7]), Action.getEvents, Action.wakeWrite,
         Action.getRcvmore true, Action.transportRecv (.err ZmqError.EAGAIN),
         Action.clearWriteReady, Action.registerRead,
         Action.transportRecv (.ok [8]), Action.getEvents, Action.wakeWrite,
         Action.getRcvmore false], []) ∧
    Action.registerRead ∈
        [Action.transportRecv (.ok [7]), Action.getEvents, Action.wakeWrite,
         Action.getRcvmore true, Action.transportRecv (.err ZmqError.EAGAIN),
         Action.clearWriteReady, Action.registerRead,
         Action.transportRecv (.ok [8]), Action.getEvents, Action.wakeWrite,
         Action.getRcvmore false] ∧
    ([[7], [8]] : List Msg) ≠ [[8]] := by
  decide

/-- C5 (amended).  A multi-part receive that hits would-block
mid-assembly suspends with the already-pulled parts retained: a
would-block attempt leaves the accumulated part list of
`recv_multipart_run` unchanged and merely prepends the suspend trace
(transport receive, `clearWriteReady`, `registerRead`); on resume the
loop continues appending to that same list, so partial state IS carried
across the suspension boundary. -/
theorem C5_theorem (parts : List Msg) (ev : Nat) (mr : Bool)
    (oracle : List ReadAttemptInput) :
    recv_multipart_run parts (⟨.err ZmqError.EAGAIN, ev, mr⟩ :: oracle) =
      (recv_multipart_run parts oracle).map
        (fun r => (r.1,
          [Action.transportRecv (.err ZmqError.EAGAIN), Action.clearWriteReady,
           Action.registerRead] ++ r.2.1, r.2.2)) := by
  rw [recv_multipart_run]
  cases recv_multipart_run parts oracle with
  | none => rfl
  | some r => rfl

/-- C7.  Every transport error other than would-block returned by a
non-blocking send or receive attempt is propagated to the caller
unchanged and immediately: the poll is `Ready` with the very same error
(never `Pending`), and its trace is exactly the one transport call — no
waker registration, no readiness clear, no wake, no retry. -/
theorem C7_theorem (e : ZmqError) (he : e ≠ ZmqError.EAGAIN) (msg : Msg)
    (flags evs evr : Nat) (mr : Bool) :
    poll_write msg flags ⟨.err e, evs⟩ =
      (Poll.Ready (.err e),
        [Action.transportSend (copy_msg msg) (DONTWAIT ||| flags)]) ∧
    poll_read ⟨.err e, evr, mr⟩ =
      (Poll.Ready (.err e), [Action.transportRecv (.err e)]) := by
  cases e with
  | EAGAIN => exact absurd rfl he
  | _ => exact ⟨rfl, rfl⟩

/-- C7 witness: the theorem at the concrete fatal error `EINVAL`. -/
theorem C7_theorem_witness :
    ZmqError.EINVAL ≠ ZmqError.EAGAIN ∧
    (poll_write [2] 0 ⟨.err ZmqError.EINVAL, 0⟩ =
      (Poll.Ready (.err ZmqError.EINVAL),
        [Action.transportSend (copy_msg [2]) (DONTWAIT ||| 0)]) ∧
    poll_read ⟨.err ZmqError.EINVAL, 0, false⟩ =
      (Poll.Ready (.err ZmqError.EINVAL),
        [Action.transportRecv (.err ZmqError.EINVAL)])) :=
  ⟨by decide, C7_theorem ZmqError.EINVAL (by decide) [2] 0 0 0 false⟩

/- Small computation rules for the trace projections. -/

theorem sendActions_cons_send (m : Msg) (f : Nat) (l : List Action) :
    sendActions (Action.transportSend m f :: l) = (m, f) :: sendActions l := rfl

theorem recvOks_nil : recvOks [] = [] := rfl

theorem recvOks_cons_ok (m : Msg) (l : List Action) :
    recvOks (Action.transportRecv (.ok m) :: l) = m :: recvOks l := rfl

theorem recvOks_cons_err (e : ZmqError) (l : List Action) :
    recvOks (Action.transportRecv (.err e) :: l) = recvOks l := rfl

theorem recvOks_cons_more (b : Bool) (l : List Action) :
    recvOks (Action.getRcvmore b :: l) = recvOks l := rfl

theorem recvOks_cons_clearW (l : List Action) :
    recvOks (Action.clearWriteReady :: l) = recvOks l := rfl

theorem recvOks_cons_regR (l : List Action) :
    recvOks (Action.registerRead :: l) = recvOks l := rfl

theorem rcvmoreObs_nil : rcvmoreObs [] = [] := rfl

theorem rcvmoreObs_cons_recv (r : ZmqResult Msg) (l : List Action) :
    rcvmoreObs (Action.transportRecv r :: l) = rcvmoreObs l := rfl

theorem rcvmoreObs_cons_more (b : Bool) (l : List Action) :
    rcvmoreObs (Action.getRcvmore b :: l) = b :: rcvmoreObs l := rfl

theorem rcvmoreObs_cons_clearW (l : List Action) :
    rcvmoreObs (Action.clearWriteReady :: l) = rcvmoreObs l := rfl

theorem rcvmoreObs_cons_regR (l : List Action) :
    rcvmoreObs (Action.registerRead :: l) = rcvmoreObs l := rfl

/-- When every transport attempt succeeds, `send_multipart` consumes one
oracle entry per frame, succeeds, and its transport calls are exactly
the expected per-frame calls. -/
theorem send_multipart_all_ok (msgs : List Msg) :
    ∀ (oracle : List WriteAttemptInput),
      (∀ inp ∈ oracle, inp.sendResult = ZmqResult.ok ()) →
      msgs.length ≤ oracle.length →
      ∃ tr, send_multipart msgs oracle =
          some (.ok (), tr, oracle.drop msgs.length) ∧
        sendActions tr = expectedSendCalls msgs := by
  induction msgs with
  | nil =>
    intro oracle hok hlen
    exact ⟨[], rfl, rfl⟩
  | cons m rest ih =>
    intro oracle hok hlen
    cases oracle with
    | nil => simp at hlen
    | cons inp o =>
      rcases inp with ⟨sr, ev⟩
      have hin : sr = ZmqResult.ok () := hok ⟨sr, ev⟩ (List.mem_cons_self _ _)
      subst hin
      obtain ⟨tr', heq', hsa'⟩ :=
        ih o (fun i hi => hok i (List.mem_cons_of_mem _ hi))
          (Nat.le_of_succ_le_succ hlen)
      have hsf : sendFrame m (if rest.isEmpty then 0 else SNDMORE)
          (⟨ZmqResult.ok (), ev⟩ :: o) =
          some (.ok (),
            Action.transportSend (copy_msg m)
                (DONTWAIT ||| (if rest.isEmpty then 0 else SNDMORE)) ::
              wakeup_read ev, o) := rfl
      refine ⟨Action.transportSend (copy_msg m)
          (DONTWAIT ||| (if rest.isEmpty then 0 else SNDMORE)) ::
          (wakeup_read ev ++ tr'), ?_, ?_⟩
      · simp only [send_multipart, hsf, heq']
        simp
      · rw [sendActions_cons_send, sendActions_append, sendActions_wakeup_read]
        cases rest with
        | nil => simp [expectedSendCalls, hsa']
        | cons r rs => simp [expectedSendCalls, hsa']

/-- C9.  When the transport accepts every frame, `send_multipart` issues
exactly one transport send per frame in order: each frame but the last
carries the `SNDMORE` flag (or-ed with `DONTWAIT`), the last carries no
extra flag; and for the empty frame sequence it performs no transport
send at all and returns success, consuming no oracle entry. -/
theorem C9_theorem (msgs : List Msg) (oracle : List WriteAttemptInput)
    (hok : (oracle.all fun inp => inp.sendResult == ZmqResult.ok ()) = true)
    (hlen : msgs.length ≤ oracle.length) :
    (send_multipart msgs oracle).map (fun r => (r.1, sendActions r.2.1)) =
      some (ZmqResult.ok (), expectedSendCalls msgs) ∧
    send_multipart [] oracle = some (.ok (), [], oracle) := by
  have hok' : ∀ inp ∈ oracle, inp.sendResult = ZmqResult.ok () := by
    intro inp hi
    exact eq_of_beq (List.all_eq_true.1 hok inp hi)
  obtain ⟨tr, heq, hsa⟩ := send_multipart_all_ok msgs oracle hok' hlen
  refine ⟨?_, rfl⟩
  rw [heq]
  simp [hsa]

/-- C9 witness: the theorem at three frames against an all-accepting
transport. -/
theorem C9_theorem_witness :
    (([⟨.ok (), 0⟩, ⟨.ok (), 0⟩, ⟨.ok (), 0⟩] : List WriteAttemptInput).all
        fun inp => inp.sendResult == ZmqResult.ok ()) = true ∧
    ([[1], [2], [3]] : List Msg).length ≤
      ([⟨.ok (), 0⟩, ⟨.ok (), 0⟩, ⟨.ok (), 0⟩] : List WriteAttemptInput).length ∧
    ((send_multipart [[1], [2], [3]]
          [⟨.ok (), 0⟩, ⟨.ok (), 0⟩, ⟨.ok (), 0⟩]).map
        (fun r => (r.1, sendActions r.2.1)) =
      some (ZmqResult.ok (), expectedSendCalls [[1], [2], [3]]) ∧
    send_multipart [] [⟨.ok (), 0⟩, ⟨.ok (), 0⟩, ⟨.ok (), 0⟩] =
      some (.ok (), [], [⟨.ok (), 0⟩, ⟨.ok (), 0⟩, ⟨.ok (), 0⟩])) :=
  ⟨by decide, by decide,
    C9_theorem [[1], [2], [3]] [⟨.ok (), 0⟩, ⟨.ok (), 0⟩, ⟨.ok (), 0⟩]
      (by decide) (by decide)⟩

/-- A successful `recv_multipart_run` returns the initial accumulator
extended by exactly the messages its trace received, in order, and its
`get_rcvmore` observations are all-true followed by one final false. -/
theorem recv_run_ok_charac (oracle : List ReadAttemptInput) :
    ∀ (parts0 parts : List Msg) (tr : List Action) (rest : List ReadAttemptInput),
      recv_multipart_run parts0 oracle = some (.ok parts, tr, rest) →
      parts = parts0 ++ recvOks tr ∧ recvOks tr ≠ [] ∧
      rcvmoreObs tr = List.replicate ((recvOks tr).length - 1) true ++ [false] := by
  induction oracle with
  | nil =>
    intro parts0 parts tr rest h
    simp [recv_multipart_run] at h
  | cons inp o ih =>
    intro parts0 parts tr rest h
    rcases inp with ⟨rres, ev, mr⟩
    cases rres with
    | ok msg =>
      cases mr with
      | true =>
        rw [show recv_multipart_run parts0 (⟨ZmqResult.ok msg, ev, true⟩ :: o) =
          (match recv_multipart_run (parts0 ++ [msg]) o with
            | none => none
            | some (r, tr', o2) =>
              some (r, (Action.transportRecv (ZmqResult.ok msg) :: wakeup_write ev) ++
                [Action.getRcvmore true] ++ tr', o2)) from rfl] at h
        split at h
        · exact Option.noConfusion h
        case h_2 r2 tr2 o2 heq2 =>
          simp only [Option.some.injEq, Prod.mk.injEq] at h
          obtain ⟨h1, h2, h3⟩ := h
          subst h2
          rw [h1] at heq2
          obtain ⟨ih1, ih2, ih3⟩ := ih (parts0 ++ [msg]) parts tr2 o2 heq2
          obtain ⟨a, l', hl⟩ := List.exists_cons_of_ne_nil ih2
          refine ⟨?_, ?_, ?_⟩
          · rw [ih1]
            simp [recvOks_cons_ok, recvOks_append, recvOks_wakeup_write,
              recvOks_cons_more, recvOks_nil, List.cons_append]
          · simp [recvOks_cons_ok, recvOks_append, recvOks_wakeup_write,
              recvOks_cons_more, recvOks_nil, List.cons_append]
          · simp only [List.cons_append, rcvmoreObs_cons_recv, rcvmoreObs_append,
              rcvmoreObs_wakeup_write, rcvmoreObs_cons_more, rcvmoreObs_nil,
              List.nil_append, recvOks_cons_ok, recvOks_append, recvOks_wakeup_write,
              recvOks_cons_more, recvOks_nil]
            rw [ih3, hl]
            simp [List.replicate_succ]
      | false =>
        rw [show recv_multipart_run parts0 (⟨ZmqResult.ok msg, ev, false⟩ :: o) =
          some (.ok (parts0 ++ [msg]),
            (Action.transportRecv (ZmqResult.ok msg) :: wakeup_write ev) ++
              [Action.getRcvmore false], o) from rfl] at h
        simp only [Option.some.injEq, Prod.mk.injEq, ZmqResult.ok.injEq] at h
        obtain ⟨h1, h2, h3⟩ := h
        subst h2
        subst h1
        refine ⟨?_, ?_, ?_⟩
        · simp [recvOks_cons_ok, recvOks_append, recvOks_wakeup_write,
            recvOks_cons_more, recvOks_nil, List.cons_append]
        · simp [recvOks_cons_ok, recvOks_append, recvOks_wakeup_write,
            recvOks_cons_more, recvOks_nil, List.cons_append]
        · simp [rcvmoreObs_cons_recv, rcvmoreObs_append, rcvmoreObs_wakeup_write,
            rcvmoreObs_cons_more, rcvmoreObs_nil, recvOks_cons_ok, recvOks_append,
            recvOks_wakeup_write, recvOks_cons_more, recvOks_nil, List.cons_append]
    | err e =>
      cases e with
      | EAGAIN =>
        rw [show recv_multipart_run parts0
            (⟨ZmqResult.err ZmqError.EAGAIN, ev, mr⟩ :: o) =
          (match recv_multipart_run parts0 o with
            | none => none
            | some (r, tr', o2) =>
              some (r, [Action.transportRecv (ZmqResult.err ZmqError.EAGAIN),
                Action.clearWriteReady, Action.registerRead] ++ tr', o2)) from rfl] at h
        split at h
        · exact Option.noConfusion h
        case h_2 r2 tr2 o2 heq2 =>
          simp only [Option.some.injEq, Prod.mk.injEq] at h
          obtain ⟨h1, h2, h3⟩ := h
          subst h2
          rw [h1] at heq2
          obtain ⟨ih1, ih2, ih3⟩ := ih parts0 parts tr2 o2 heq2
          refine ⟨?_, ?_, ?_⟩
          · rw [ih1]
            simp [recvOks_cons_err, recvOks_cons_clearW, recvOks_cons_regR,
              List.cons_append, List.nil_append]
          · simpa [recvOks_cons_err, recvOks_cons_clearW, recvOks_cons_regR,
              List.cons_append, List.nil_append] using ih2
          · simpa [recvOks_cons_err, recvOks_cons_clearW, recvOks_cons_regR,
              rcvmoreObs_cons_recv, rcvmoreObs_cons_clearW, rcvmoreObs_cons_regR,
              List.cons_append, List.nil_append] using ih3
      | ENOTSUP =>
        rw [show recv_multipart_run parts0
            (⟨ZmqResult.err ZmqError.ENOTSUP, ev, mr⟩ :: o) =
          some (.err ZmqError.ENOTSUP,
            [Action.transportRecv (ZmqResult.err ZmqError.ENOTSUP)], o) from rfl] at h
        simp at h
      | EINVAL =>
        rw [show recv_multipart_run parts0
            (⟨ZmqResult.err ZmqError.EINVAL, ev, mr⟩ :: o) =
          some (.err ZmqError.EINVAL,
            [Action.transportRecv (ZmqResult.err ZmqError.EINVAL)], o) from rfl] at h
        simp at h
      | EFSM =>
        rw [show recv_multipart_run parts0
            (⟨ZmqResult.err ZmqError.EFSM, ev, mr⟩ :: o) =
          some (.err ZmqError.EFSM,
            [Action.transportRecv (ZmqResult.err ZmqError.EFSM)], o) from rfl] at h
        simp at h
      | ETERM =>
        rw [show recv_multipart_run parts0
            (⟨ZmqResult.err ZmqError.ETERM, ev, mr⟩ :: o) =
          some (.err ZmqError.ETERM,
            [Action.transportRecv (ZmqResult.err ZmqError.ETERM)], o) from rfl] at h
        simp at h
      | EINTR =>
        rw [show recv_multipart_run parts0
            (⟨ZmqResult.err ZmqError.EINTR, ev, mr⟩ :: o) =
          some (.err ZmqError.EINTR,
            [Action.transportRecv (ZmqResult.err ZmqError.EINTR)], o) from rfl] at h
        simp at h
      | EHOSTUNREACH =>
        rw [show recv_multipart_run parts0
            (⟨ZmqResult.err ZmqError.EHOSTUNREACH, ev, mr⟩ :: o) =
          some (.err ZmqError.EHOSTUNREACH,
            [Action.transportRecv (ZmqResult.err ZmqError.EHOSTUNREACH)], o) from rfl] at h
        simp at h

/-- C10.  Whenever `recv_multipart` (= `recv_multipart_as` with the
identity conversion) returns successfully, the returned sequence is
non-empty, equals exactly the messages delivered by the successful
transport receives of the run in their order of arrival, and the
`get_rcvmore` answers observed are true for every part but the last and
false for the last: the loop stops at the first part after which the
transport reports that no more parts follow. -/
theorem C10_theorem (oracle : List ReadAttemptInput) (parts : List Msg)
    (tr : List Action) (rest : List ReadAttemptInput)
    (h : recv_multipart_as oracle = some (.ok parts, tr, rest)) :
    parts ≠ [] ∧ parts = recvOks tr ∧
    rcvmoreObs tr = List.replicate (parts.length - 1) true ++ [false] := by
  obtain ⟨h1, h2, h3⟩ := recv_run_ok_charac oracle [] parts tr rest h
  have hp : parts = recvOks tr := by simpa using h1
  refine ⟨?_, hp, ?_⟩
  · rw [hp]; exact h2
  · rw [hp]; exact h3

/-- C10 witness: the theorem on a concrete two-part receive. -/
theorem C10_theorem_witness :
    recv_multipart_as [⟨.ok [1], 0, true⟩, ⟨.ok [2], 0, false⟩] =
      some (.ok [[1], [2]],
        [Action.transportRecv (.ok [1]), Action.getEvents, Action.wakeWrite,
         Action.getRcvmore true, Action.transportRecv (.ok [2]),
         Action.getEvents, Action.wakeWrite, Action.getRcvmore false], []) ∧
    (([[1], [2]] : List Msg) ≠ [] ∧
    ([[1], [2]] : List Msg) = recvOks
        [Action.transportRecv (.ok [1]), Action.getEvents, Action.wakeWrite,
         Action.getRcvmore true, Action.transportRecv (.ok [2]),
         Action.getEvents, Action.wakeWrite, Action.getRcvmore false] ∧
    rcvmoreObs
        [Action.transportRecv (.ok [1]), Action.getEvents, Action.wakeWrite,
         Action.getRcvmore true, Action.transportRecv (.ok [2]),
         Action.getEvents, Action.wakeWrite, Action.getRcvmore false] =
      List.replicate (([[1], [2]] : List Msg).length - 1) true ++ [false]) :=
  ⟨by decide,
    C10_theorem [⟨.ok [1], 0, true⟩, ⟨.ok [2], 0, false⟩] [[1], [2]]
      [Action.transportRecv (.ok [1]), Action.getEvents, Action.wakeWrite,
       Action.getRcvmore true, Action.transportRecv (.ok [2]),
       Action.getEvents, Action.wakeWrite, Action.getRcvmore false] []
      (by decide)⟩

end ZmqAsync
